import Mathlib

/-!
Verification of the soss websocket rosbridge-v2 protocol translator.

The development shallowly embeds the two source files of the repository:

* `packages/websocket/src/RosbridgeV2Encoding.hpp` — the protocol
  encoding: `interpret_websocket_msg` (decode dispatch over the nine op
  codes) and the six `encode_*_msg` builders.
* `packages/websocket/src/BsonSerializer.cpp` — the binary wire codec,
  which delegates to a BSON library.

Parts of the program that are declared but whose definitions are not in
the two files (the field/op string constants, the `get_*` field helpers,
the `JsonSerializer` text codec and the BSON library internals) are
modelled from the specification, as flagged in their doc comments.
-/

namespace Soss

/-- The shared structured-value model (shallow embedding of `json::Json`
values): null, boolean, integer, floating point, string, byte blob,
ordered sequence, ordered mapping with string keys.  A floating-point
payload is carried as its IEEE-754 bit pattern, which the codecs
transport verbatim. -/
inductive JValue : Type where
  | null : JValue
  | bool : Bool → JValue
  | int : Int → JValue
  | float : Nat → JValue
  | str : String → JValue
  | blob : List UInt8 → JValue
  | arr : List JValue → JValue
  | obj : List (String × JValue) → JValue

/-- `json::Json::find` — locate a field of an object by key; on a
non-object value the lookup reports the key as missing (the iterator
equals `end()`). -/
def JValue.find? : JValue → String → Option JValue
  | .obj fields, key => (fields.find? (fun kv => kv.1 == key)).map Prod.snd
  | _, _ => none

/-- `true` exactly on string values; `get<std::string>` succeeds exactly
on these. -/
def JValue.isStr : JValue → Bool
  | .str _ => true
  | _ => false

/-- `output[key] = v` on a `json::Json` object: replace the binding of
an existing key, otherwise append a new binding.  (An envelope is an
ordered mapping keyed by the field vocabulary; the encoders only ever
assign distinct keys, so the internal ordering of the mapping is never
observable through the protocol.) -/
def setField : List (String × JValue) → String → JValue → List (String × JValue)
  | [], key, v => [(key, v)]
  | (k, w) :: rest, key, v =>
    if key = k then (key, v) :: rest
    else (k, w) :: setField rest key v

/-- The internal message representation (`soss::Message`).  The core
treats it as a black box convertible to and from the structured-value
model by the external conversion collaborator. -/
structure Message : Type where
  data : JValue

/-- `soss::json::convert` (message → structured value), the conversion
collaborator's direction used by the encoders. -/
def json_convert (m : Message) : JValue := m.data

/-- `soss::json::convert` (structured value → message), the conversion
collaborator's direction used when extracting a `msg`/`args`/`values`
field. -/
def msg_of_json (v : JValue) : Message := ⟨v⟩

-- message fields.  Modelled from the spec: the `Json*Key` string
-- constants are declared `extern` in RosbridgeV2Encoding.hpp and defined
-- in a translation unit not present under src/; §6 gives the exact
-- strings.
def JsonIdKey : String := "id"
def JsonOpKey : String := "op"
def JsonTopicNameKey : String := "topic"
def JsonTypeNameKey : String := "type"
def JsonMsgKey : String := "msg"
def JsonServiceKey : String := "service"
def JsonArgsKey : String := "args"
def JsonValuesKey : String := "values"
def JsonResultKey : String := "result"

-- op codes.  Modelled from the spec (§6 gives the exact strings).
def JsonOpAdvertiseTopicKey : String := "advertise"
def JsonOpUnadvertiseTopicKey : String := "unadvertise"
def JsonOpPublishKey : String := "publish"
def JsonOpSubscribeKey : String := "subscribe"
def JsonOpUnsubscribeKey : String := "unsubscribe"
def JsonOpServiceRequestKey : String := "call_service"
def JsonOpAdvertiseServiceKey : String := "advertise_service"
def JsonOpUnadvertiseServiceKey : String := "unadvertise_service"
def JsonOpServiceResponseKey : String := "service_response"

/-- The per-message decode failures: a missing op code (carrying the
original payload for diagnostics), a missing required field (carrying
the field name), and the type error thrown by `get<std::string>` on a
non-string value (carrying the offending value). -/
inductive InterpretError : Type where
  | missingOpCode : JValue → InterpretError
  | missingRequiredField : String → InterpretError
  | notAString : JValue → InterpretError

/-- `value.get<std::string>()`: yields the string payload, or throws a
type error on any non-string value. -/
def getString : JValue → Except InterpretError String
  | .str s => .ok s
  | v => .error (.notAString v)

/-- Modelled from the spec: `get_optional_string` is only declared in
RosbridgeV2Encoding.hpp (its definition is not under src/).  §4.2:
optional fields substitute an empty string when absent. -/
def get_optional_string (object : JValue) (key : String) :
    Except InterpretError String :=
  match object.find? key with
  | none => .ok ""
  | some v => getString v

/-- Modelled from the spec: `get_required_string` is only declared in
RosbridgeV2Encoding.hpp (its definition is not under src/).  §4.2:
required fields fail with `MissingRequiredField(fieldName)` when
absent. -/
def get_required_string (object : JValue) (key : String) :
    Except InterpretError String :=
  match object.find? key with
  | none => .error (.missingRequiredField key)
  | some v => getString v

/-- Modelled from the spec: `get_required_msg` is only declared in
RosbridgeV2Encoding.hpp (its definition is not under src/).  §4.2:
required fields fail with `MissingRequiredField(fieldName)` when absent;
a present field is passed through the conversion collaborator. -/
def get_required_msg (object : JValue) (key : String) :
    Except InterpretError Message :=
  match object.find? key with
  | none => .error (.missingRequiredField key)
  | some v => .ok (msg_of_json v)

/-- One dispatched call on the abstract `Endpoint`, recording the
arguments it received; `H` is the opaque connection-handle type. -/
inductive EndpointCall (H : Type) : Type where
  | receive_publication (topic : String) (message : Message) (handle : H)
  | receive_service_request (service : String) (args : Message)
      (id : String) (handle : H)
  | receive_service_response (service : String) (values : Message)
      (id : String) (handle : H)
  | receive_topic_advertisement (topic typeName id : String) (handle : H)
  | receive_topic_unadvertisement (topic id : String) (handle : H)
  | receive_subscribe_request (topic typeName id : String) (handle : H)
  | receive_unsubscribe_request (topic id : String) (handle : H)
  | receive_service_advertisement (service typeName : String) (handle : H)
  | receive_service_unadvertisement (service typeName : String) (handle : H)

/-- `RosbridgeV2Encoding::interpret_websocket_msg`, lines 87–176 of
RosbridgeV2Encoding.hpp: dispatch on the already-deserialized structured
value (line 85's parse is the wire codec's deserialize step, modelled
separately).  The result is the list of endpoint calls dispatched (empty
for an unrecognized op string), or the error thrown. -/
def interpret_websocket_msg {H : Type} (msg : JValue) (connection_handle : H) :
    Except InterpretError (List (EndpointCall H)) := do
  match msg.find? JsonOpKey with
  | none => Except.error (.missingOpCode msg)
  | some opVal => do
    let op_str ← getString opVal
    if op_str = JsonOpPublishKey then
      let topic ← get_required_string msg JsonTopicNameKey
      let m ← get_required_msg msg JsonMsgKey
      return [.receive_publication topic m connection_handle]
    else if op_str = JsonOpServiceRequestKey then
      let service ← get_required_string msg JsonServiceKey
      let args ← get_required_msg msg JsonArgsKey
      let id ← get_optional_string msg JsonIdKey
      return [.receive_service_request service args id connection_handle]
    else if op_str = JsonOpServiceResponseKey then
      let service ← get_required_string msg JsonServiceKey
      let values ← get_required_msg msg JsonValuesKey
      let id ← get_optional_string msg JsonIdKey
      return [.receive_service_response service values id connection_handle]
    else if op_str = JsonOpAdvertiseTopicKey then
      let topic ← get_required_string msg JsonTopicNameKey
      let typeName ← get_required_string msg JsonTypeNameKey
      let id ← get_optional_string msg JsonIdKey
      return [.receive_topic_advertisement topic typeName id connection_handle]
    else if op_str = JsonOpUnadvertiseTopicKey then
      let topic ← get_required_string msg JsonTopicNameKey
      let id ← get_optional_string msg JsonIdKey
      return [.receive_topic_unadvertisement topic id connection_handle]
    else if op_str = JsonOpSubscribeKey then
      let topic ← get_required_string msg JsonTopicNameKey
      let typeName ← get_optional_string msg JsonTypeNameKey
      let id ← get_optional_string msg JsonIdKey
      return [.receive_subscribe_request topic typeName id connection_handle]
    else if op_str = JsonOpUnsubscribeKey then
      let topic ← get_required_string msg JsonTopicNameKey
      let id ← get_optional_string msg JsonIdKey
      return [.receive_unsubscribe_request topic id connection_handle]
    else if op_str = JsonOpAdvertiseServiceKey then
      let service ← get_required_string msg JsonServiceKey
      let typeName ← get_required_string msg JsonTypeNameKey
      return [.receive_service_advertisement service typeName connection_handle]
    else if op_str = JsonOpUnadvertiseServiceKey then
      let service ← get_required_string msg JsonServiceKey
      let typeName ← get_optional_string msg JsonTypeNameKey
      return [.receive_service_unadvertisement service typeName connection_handle]
    else
      return []

/-- `YAML::Node` configuration argument: accepted by the encoders but
not encoded (documented gap), so it carries no data the core reads. -/
structure YamlNode : Type where

/-- An empty configuration node. -/
def emptyConfig : YamlNode := {}

/-- `encode_publication_msg`, envelope-construction part (lines
184–189): op=publish, topic, msg=convert(message); id only if
non-empty.  The topic type argument is ignored by the source. -/
def encode_publication_obj (topic_name _topic_type id : String)
    (msg : Message) : JValue :=
  let fields := setField [] JsonOpKey (.str JsonOpPublishKey)
  let fields := setField fields JsonTopicNameKey (.str topic_name)
  let fields := setField fields JsonMsgKey (json_convert msg)
  let fields := if id = "" then fields else setField fields JsonIdKey (.str id)
  .obj fields

/-- `encode_service_response_msg`, envelope-construction part (lines
201–207): op=service_response, service, values=convert(response),
result; id only if non-empty. -/
def encode_service_response_obj (service_name _service_type id : String)
    (response : Message) (result : Bool) : JValue :=
  let fields := setField [] JsonOpKey (.str JsonOpServiceResponseKey)
  let fields := setField fields JsonServiceKey (.str service_name)
  let fields := setField fields JsonValuesKey (json_convert response)
  let fields := setField fields JsonResultKey (.bool result)
  let fields := if id = "" then fields else setField fields JsonIdKey (.str id)
  .obj fields

/-- `encode_subscribe_msg`, envelope-construction part (lines 220–225):
op=subscribe, topic, type; id only if non-empty.  The configuration is
accepted but not encoded. -/
def encode_subscribe_obj (topic_name message_type id : String)
    (_configuration : YamlNode) : JValue :=
  let fields := setField [] JsonOpKey (.str JsonOpSubscribeKey)
  let fields := setField fields JsonTopicNameKey (.str topic_name)
  let fields := setField fields JsonTypeNameKey (.str message_type)
  let fields := if id = "" then fields else setField fields JsonIdKey (.str id)
  .obj fields

/-- `encode_advertise_msg`, envelope-construction part (lines 236–241):
op=advertise, topic, type; id only if non-empty. -/
def encode_advertise_obj (topic_name message_type id : String)
    (_configuration : YamlNode) : JValue :=
  let fields := setField [] JsonOpKey (.str JsonOpAdvertiseTopicKey)
  let fields := setField fields JsonTopicNameKey (.str topic_name)
  let fields := setField fields JsonTypeNameKey (.str message_type)
  let fields := if id = "" then fields else setField fields JsonIdKey (.str id)
  .obj fields

/-- `encode_call_service_msg`, envelope-construction part (lines
255–260): op=call_service, service, args=convert(request); id only if
non-empty. -/
def encode_call_service_obj (service_name _service_type : String)
    (service_request : Message) (id : String)
    (_configuration : YamlNode) : JValue :=
  let fields := setField [] JsonOpKey (.str JsonOpServiceRequestKey)
  let fields := setField fields JsonServiceKey (.str service_name)
  let fields := setField fields JsonArgsKey (json_convert service_request)
  let fields := if id = "" then fields else setField fields JsonIdKey (.str id)
  .obj fields

/-- `encode_advertise_service_msg`, envelope-construction part (lines
271–274): op=advertise_service, type, service.  The id argument is
ignored (the source comments out its name), so no id field is ever
emitted. -/
def encode_advertise_service_obj (service_name service_type _id : String)
    (_configuration : YamlNode) : JValue :=
  let fields := setField [] JsonOpKey (.str JsonOpAdvertiseServiceKey)
  let fields := setField fields JsonTypeNameKey (.str service_type)
  let fields := setField fields JsonServiceKey (.str service_name)
  .obj fields

/-- `encode_subscribe_msg`, full form: build the envelope and delegate
to the wire codec (`_serializer.serialize`), which is passed as a
function, mirroring the `Serializer` template parameter. -/
def encode_subscribe_msg (serialize : JValue → List Nat)
    (topic_name message_type id : String) (configuration : YamlNode) :
    List Nat :=
  serialize (encode_subscribe_obj topic_name message_type id configuration)

/-! ## The binary wire codec

Modelled from the spec: the binary codec of the repository is
`BsonSerializer`, whose `serialize`/`deserialize` delegate to a BSON
library that is not part of this repository, so its byte format is
modelled from §4.1: a compact, self-describing, type-tagged,
length-prefixed binary encoding of the structured-value model including
raw byte blobs.  Trailing bytes after a complete value are rejected
(the consistent-and-documented choice §4.1 requires). -/

/-- Little-endian base-128 (varint) encoding of a natural number, used
for every length prefix and numeric payload of the binary codec. -/
def natEnc (n : Nat) : List Nat :=
  if n < 128 then [n]
  else (n % 128 + 128) :: natEnc (n / 128)
termination_by n
decreasing_by
  exact Nat.div_lt_self (by omega) (by omega)

/-- Decoder for `natEnc`, returning the value and the remaining bytes. -/
def natDec : List Nat → Option (Nat × List Nat)
  | [] => none
  | b :: rest =>
    if b < 128 then some (b, rest)
    else
      match natDec rest with
      | none => none
      | some (n, r) => some (b - 128 + 128 * n, r)

/-- Zigzag packing of an integer into a natural number. -/
def intPack (i : Int) : Nat :=
  if 0 ≤ i then 2 * i.toNat else 2 * (-i).toNat - 1

/-- Inverse of `intPack`. -/
def intUnpack (n : Nat) : Int :=
  if n % 2 = 0 then Int.ofNat (n / 2) else -(Int.ofNat ((n + 1) / 2))

/-- Byte encoding of a character list: each character as the varint of
its code point. -/
def encChars : List Char → List Nat
  | [] => []
  | c :: cs => natEnc c.toNat ++ encChars cs

/-- Decoder reading exactly `cnt` characters encoded by `encChars`. -/
def decChars : Nat → List Nat → Option (List Char × List Nat)
  | 0, data => some ([], data)
  | cnt + 1, data =>
    match natDec data with
    | none => none
    | some (c, r) =>
      match decChars cnt r with
      | none => none
      | some (cs, r2) => some (Char.ofNat c :: cs, r2)

/-- Length-prefixed byte encoding of a string. -/
def encStrPayload (s : String) : List Nat :=
  natEnc s.data.length ++ encChars s.data

/-- Decoder for `encStrPayload`. -/
def decStrPayload (data : List Nat) : Option (String × List Nat) :=
  match natDec data with
  | none => none
  | some (len, r) =>
    match decChars len r with
    | none => none
    | some (cs, r2) => some (String.mk cs, r2)

/-- Decoder reading exactly `cnt` raw blob bytes. -/
def decBytes : Nat → List Nat → Option (List UInt8 × List Nat)
  | 0, data => some ([], data)
  | _ + 1, [] => none
  | cnt + 1, b :: r =>
    match decBytes cnt r with
    | none => none
    | some (bs, r2) => some (UInt8.ofNat b :: bs, r2)

mutual

/-- The binary encoding of one structured value: a type tag byte
followed by the value's length-prefixed payload. -/
def encodeVal : JValue → List Nat
  | .null => [0]
  | .bool false => [1]
  | .bool true => [2]
  | .int i => 3 :: natEnc (intPack i)
  | .float bits => 4 :: natEnc bits
  | .str s => 5 :: encStrPayload s
  | .blob bs => 6 :: (natEnc bs.length ++ bs.map (fun b => b.toNat))
  | .arr items => 7 :: (natEnc items.length ++ encodeVals items)
  | .obj fields => 8 :: (natEnc fields.length ++ encodePairs fields)

/-- The concatenated binary encodings of a sequence's elements. -/
def encodeVals : List JValue → List Nat
  | [] => []
  | v :: vs => encodeVal v ++ encodeVals vs

/-- The concatenated binary encodings of a mapping's entries (string
key payload, then value). -/
def encodePairs : List (String × JValue) → List Nat
  | [] => []
  | (k, v) :: ps => encStrPayload k ++ encodeVal v ++ encodePairs ps

end

mutual

/-- Fueled decoder for `encodeVal`; the fuel only decreases when
descending into a nested sequence or mapping, so any fuel above the
value's nesting depth suffices. -/
def decodeVal : Nat → List Nat → Option (JValue × List Nat)
  | 0, _ => none
  | _ + 1, [] => none
  | fuel + 1, t :: rest =>
    if t = 0 then some (.null, rest)
    else if t = 1 then some (.bool false, rest)
    else if t = 2 then some (.bool true, rest)
    else if t = 3 then
      match natDec rest with
      | none => none
      | some (n, r) => some (.int (intUnpack n), r)
    else if t = 4 then
      match natDec rest with
      | none => none
      | some (n, r) => some (.float n, r)
    else if t = 5 then
      match decStrPayload rest with
      | none => none
      | some (s, r) => some (.str s, r)
    else if t = 6 then
      match natDec rest with
      | none => none
      | some (cnt, r) =>
        match decBytes cnt r with
        | none => none
        | some (bs, r2) => some (.blob bs, r2)
    else if t = 7 then
      match natDec rest with
      | none => none
      | some (cnt, r) =>
        match decodeVals fuel cnt r with
        | none => none
        | some (vs, r2) => some (.arr vs, r2)
    else if t = 8 then
      match natDec rest with
      | none => none
      | some (cnt, r) =>
        match decodePairs fuel cnt r with
        | none => none
        | some (ps, r2) => some (.obj ps, r2)
    else none
termination_by fuel _ => (fuel, 0)

/-- Fueled decoder for `encodeVals`, reading exactly `cnt` elements. -/
def decodeVals : Nat → Nat → List Nat → Option (List JValue × List Nat)
  | _, 0, data => some ([], data)
  | fuel, cnt + 1, data =>
    match decodeVal fuel data with
    | none => none
    | some (v, r) =>
      match decodeVals fuel cnt r with
      | none => none
      | some (vs, r2) => some (v :: vs, r2)
termination_by fuel cnt _ => (fuel, cnt + 1)

/-- Fueled decoder for `encodePairs`, reading exactly `cnt` entries. -/
def decodePairs : Nat → Nat → List Nat →
    Option (List (String × JValue) × List Nat)
  | _, 0, data => some ([], data)
  | fuel, cnt + 1, data =>
    match decStrPayload data with
    | none => none
    | some (k, r) =>
      match decodeVal fuel r with
      | none => none
      | some (v, r2) =>
        match decodePairs fuel cnt r2 with
        | none => none
        | some (ps, r3) => some ((k, v) :: ps, r3)
termination_by fuel cnt _ => (fuel, cnt + 1)

end

mutual

/-- Nesting depth of a structured value (zero at the leaves). -/
def jdepth : JValue → Nat
  | .arr items => jdepthVals items + 1
  | .obj fields => jdepthPairs fields + 1
  | _ => 0

/-- Largest nesting depth among a sequence's elements. -/
def jdepthVals : List JValue → Nat
  | [] => 0
  | v :: vs => max (jdepth v) (jdepthVals vs)

/-- Largest nesting depth among a mapping's values. -/
def jdepthPairs : List (String × JValue) → Nat
  | [] => 0
  | (_, v) :: ps => max (jdepth v) (jdepthPairs ps)

end

/-- `BsonSerializer::serialize`: the binary codec's byte serialization
of a structured value (total, as §4.1 requires). -/
def bsonSerialize (v : JValue) : List Nat := encodeVal v

/-- `BsonSerializer::deserialize`: parse one complete binary value;
fails on malformed input or trailing bytes. -/
def bsonDeserialize (data : List Nat) : Option JValue :=
  match decodeVal (data.length + 1) data with
  | some (v, []) => some v
  | _ => none

/-! ## The text wire codec

Modelled from the spec: the text codec of the repository is
`JsonSerializer`, whose implementation is not present under src/, so its
character-level format is modelled from §4.1: a human-readable,
self-describing textual encoding of the same value model (numbers,
strings, booleans, nested mappings/sequences, plus byte blobs), with
decimal digit strings for numbers, lengths and counts.  Trailing
characters after a complete value are rejected. -/

/-- The decimal digit character for `n < 10`. -/
def digitChar (n : Nat) : Char := Char.ofNat (48 + n)

/-- Big-endian decimal rendering of a natural number onto an
accumulator. -/
def toDecAux (n : Nat) (acc : List Char) : List Char :=
  if n < 10 then digitChar n :: acc
  else toDecAux (n / 10) (digitChar (n % 10) :: acc)
termination_by n
decreasing_by exact Nat.div_lt_self (by omega) (by omega)

/-- Big-endian decimal rendering of a natural number. -/
def toDec (n : Nat) : List Char := toDecAux n []

/-- `true` exactly on the decimal digit characters. -/
def isDigitChar (c : Char) : Bool := 48 ≤ c.toNat && c.toNat ≤ 57

/-- Numeric value of a decimal digit character. -/
def digitVal (c : Char) : Nat := c.toNat - 48

/-- Consume a maximal run of decimal digits, folding them onto the
accumulator; stops at the first non-digit without consuming it. -/
def parseDigits : Nat → List Char → Nat × List Char
  | acc, [] => (acc, [])
  | acc, c :: rest =>
    if isDigitChar c then parseDigits (acc * 10 + digitVal c) rest
    else (acc, c :: rest)

/-- Parse a decimal number at the head of the input. -/
def parseNat (cs : List Char) : Nat × List Char := parseDigits 0 cs

/-- Take exactly `cnt` characters from the input. -/
def takeChars : Nat → List Char → Option (List Char × List Char)
  | 0, r => some ([], r)
  | _ + 1, [] => none
  | cnt + 1, c :: r =>
    match takeChars cnt r with
    | none => none
    | some (cs, r2) => some (c :: cs, r2)

/-- Length-prefixed textual form of a string: decimal character count,
a colon, then the characters themselves (no escaping is needed since
the count delimits the payload). -/
def textEncStrPayload (s : String) : List Char :=
  toDec s.data.length ++ (':' :: s.data)

/-- Decoder for `textEncStrPayload`. -/
def textDecStrPayload (cs : List Char) : Option (String × List Char) :=
  match parseNat cs with
  | (len, ':' :: r) =>
    match takeChars len r with
    | none => none
    | some (chars, r2) => some (String.mk chars, r2)
  | _ => none

mutual

/-- The textual form of one structured value: a tag character, then the
value's payload — decimal numbers are terminated by a semicolon, and
strings, blobs, sequences and mappings carry a decimal length or count
followed by a colon. -/
def textEncVal : JValue → List Char
  | .null => ['n']
  | .bool false => ['f']
  | .bool true => ['t']
  | .int i =>
    if i < 0 then 'j' :: (toDec (-i).toNat ++ [';'])
    else 'i' :: (toDec i.toNat ++ [';'])
  | .float bits => 'd' :: (toDec bits ++ [';'])
  | .str s => 's' :: textEncStrPayload s
  | .blob bs =>
    'b' :: (toDec bs.length ++
      (':' :: bs.map (fun b => Char.ofNat b.toNat)))
  | .arr items => 'a' :: (toDec items.length ++ (':' :: textEncVals items))
  | .obj fields => 'm' :: (toDec fields.length ++ (':' :: textEncPairs fields))

/-- The concatenated textual forms of a sequence's elements. -/
def textEncVals : List JValue → List Char
  | [] => []
  | v :: vs => textEncVal v ++ textEncVals vs

/-- The concatenated textual forms of a mapping's entries (string key
payload, then value). -/
def textEncPairs : List (String × JValue) → List Char
  | [] => []
  | (k, v) :: ps => textEncStrPayload k ++ textEncVal v ++ textEncPairs ps

end

mutual

/-- Fueled decoder for `textEncVal`; as for the binary codec, the fuel
only decreases when descending into a nested sequence or mapping. -/
def textDecVal : Nat → List Char → Option (JValue × List Char)
  | 0, _ => none
  | _ + 1, [] => none
  | fuel + 1, c :: rest =>
    if c = 'n' then some (.null, rest)
    else if c = 'f' then some (.bool false, rest)
    else if c = 't' then some (.bool true, rest)
    else if c = 'i' then
      match parseNat rest with
      | (n, ';' :: r) => some (.int (Int.ofNat n), r)
      | _ => none
    else if c = 'j' then
      match parseNat rest with
      | (n, ';' :: r) => some (.int (-(Int.ofNat n)), r)
      | _ => none
    else if c = 'd' then
      match parseNat rest with
      | (n, ';' :: r) => some (.float n, r)
      | _ => none
    else if c = 's' then
      match textDecStrPayload rest with
      | none => none
      | some (s, r) => some (.str s, r)
    else if c = 'b' then
      match parseNat rest with
      | (cnt, ':' :: r) =>
        match takeChars cnt r with
        | none => none
        | some (chars, r2) =>
          some (.blob (chars.map (fun ch => UInt8.ofNat ch.toNat)), r2)
      | _ => none
    else if c = 'a' then
      match parseNat rest with
      | (cnt, ':' :: r) =>
        match textDecVals fuel cnt r with
        | none => none
        | some (vs, r2) => some (.arr vs, r2)
      | _ => none
    else if c = 'm' then
      match parseNat rest with
      | (cnt, ':' :: r) =>
        match textDecPairs fuel cnt r with
        | none => none
        | some (ps, r2) => some (.obj ps, r2)
      | _ => none
    else none
termination_by fuel _ => (fuel, 0)

/-- Fueled decoder for `textEncVals`, reading exactly `cnt` elements. -/
def textDecVals : Nat → Nat → List Char → Option (List JValue × List Char)
  | _, 0, data => some ([], data)
  | fuel, cnt + 1, data =>
    match textDecVal fuel data with
    | none => none
    | some (v, r) =>
      match textDecVals fuel cnt r with
      | none => none
      | some (vs, r2) => some (v :: vs, r2)
termination_by fuel cnt _ => (fuel, cnt + 1)

/-- Fueled decoder for `textEncPairs`, reading exactly `cnt` entries. -/
def textDecPairs : Nat → Nat → List Char →
    Option (List (String × JValue) × List Char)
  | _, 0, data => some ([], data)
  | fuel, cnt + 1, data =>
    match textDecStrPayload data with
    | none => none
    | some (k, r) =>
      match textDecVal fuel r with
      | none => none
      | some (v, r2) =>
        match textDecPairs fuel cnt r2 with
        | none => none
        | some (ps, r3) => some ((k, v) :: ps, r3)
termination_by fuel cnt _ => (fuel, cnt + 1)

end

/-- `JsonSerializer::serialize`: the text codec's serialization of a
structured value (total, as §4.1 requires). -/
def jsonSerialize (v : JValue) : List Char := textEncVal v

/-- `JsonSerializer::deserialize`: parse one complete textual value;
fails on malformed input or trailing characters. -/
def jsonDeserialize (data : List Char) : Option JValue :=
  match textDecVal (data.length + 1) data with
  | some (v, []) => some v
  | _ => none

/-! ## General lemmas -/

theorem except_bind_ok {ε α β : Type} (a : α) (f : α → Except ε β) :
    (Except.ok a : Except ε α) >>= f = f a := rfl

theorem except_bind_error {ε α β : Type} (e : ε) (f : α → Except ε β) :
    (Except.error e : Except ε α) >>= f = Except.error e := rfl

theorem except_map_ok {ε α β : Type} (f : α → β) (a : α) :
    f <$> (Except.ok a : Except ε α) = Except.ok (f a) := rfl

theorem except_map_error {ε α β : Type} (f : α → β) (e : ε) :
    f <$> (Except.error e : Except ε α) = Except.error e := rfl

theorem except_pure {ε α : Type} (a : α) :
    (pure a : Except ε α) = Except.ok a := rfl

theorem uint8_ofNat_toNat (b : UInt8) : UInt8.ofNat b.toNat = b := by
  cases b with
  | mk v => simp [UInt8.ofNat, UInt8.toNat]

theorem char_toNat_ofNat (n : Nat) (h : n < 55296) :
    (Char.ofNat n).toNat = n := by
  have hv : n.isValidChar := Or.inl h
  simp [Char.ofNat, hv, Char.ofNatAux, Char.toNat, UInt32.toNat,
    BitVec.toNat_ofNatLt]

/-! ## Round-trip of the binary wire codec -/

theorem natDec_natEnc (n : Nat) (r : List Nat) :
    natDec (natEnc n ++ r) = some (n, r) := by
  induction n using Nat.strong_induction_on with
  | _ n ih =>
    rw [natEnc]
    by_cases h : n < 128
    · simp [h, natDec]
    · have hd : n / 128 < n := Nat.div_lt_self (by omega) (by omega)
      have h2 : ¬(n % 128 + 128 < 128) := by omega
      simp [h, h2, natDec, ih (n / 128) hd]
      omega

theorem intUnpack_intPack (i : Int) : intUnpack (intPack i) = i := by
  cases i with
  | ofNat n =>
    have h1 : intPack (Int.ofNat n) = 2 * n := by simp [intPack]
    have h2 : 2 * n % 2 = 0 := by omega
    have h3 : 2 * n / 2 = n := by omega
    rw [h1]
    simp [intUnpack, h2, h3]
  | negSucc m =>
    have h1 : intPack (Int.negSucc m) = 2 * m + 1 := by
      have hneg : ¬(0 ≤ Int.negSucc m) :=
        Int.not_le.mpr (Int.negSucc_lt_zero m)
      have htn : (-Int.negSucc m).toNat = m + 1 := by
        rw [Int.neg_negSucc]
        exact Int.toNat_ofNat _
      rw [intPack, if_neg hneg, htn]
      omega
    have h2 : ¬((2 * m + 1) % 2 = 0) := by omega
    have h3 : (2 * m + 1 + 1) / 2 = m + 1 := by omega
    rw [h1, intUnpack, if_neg h2, h3, Int.negSucc_eq]
    simp

theorem decChars_encChars (cs : List Char) (r : List Nat) :
    decChars cs.length (encChars cs ++ r) = some (cs, r) := by
  induction cs generalizing r with
  | nil => simp [encChars, decChars]
  | cons c cs ih =>
    simp [encChars, decChars, List.append_assoc, natDec_natEnc, ih,
      Char.ofNat_toNat]

theorem decStrPayload_encStrPayload (s : String) (r : List Nat) :
    decStrPayload (encStrPayload s ++ r) = some (s, r) := by
  simp only [encStrPayload, decStrPayload, List.append_assoc, natDec_natEnc,
    decChars_encChars]

theorem decBytes_encBytes (bs : List UInt8) (r : List Nat) :
    decBytes bs.length (bs.map (fun b => b.toNat) ++ r) = some (bs, r) := by
  induction bs generalizing r with
  | nil => simp [decBytes]
  | cons b bs ih => simp [decBytes, ih, uint8_ofNat_toNat]

theorem decode_encode_all (fuel : Nat) :
    (∀ v r, jdepth v < fuel →
      decodeVal fuel (encodeVal v ++ r) = some (v, r)) ∧
    (∀ vs r, jdepthVals vs < fuel →
      decodeVals fuel vs.length (encodeVals vs ++ r) = some (vs, r)) ∧
    (∀ ps r, jdepthPairs ps < fuel →
      decodePairs fuel ps.length (encodePairs ps ++ r) = some (ps, r)) := by
  induction fuel with
  | zero =>
    exact ⟨fun v r h => absurd h (Nat.not_lt_zero _),
      fun vs r h => absurd h (Nat.not_lt_zero _),
      fun ps r h => absurd h (Nat.not_lt_zero _)⟩
  | succ fuel ih =>
    have l1 : ∀ v r, jdepth v < fuel + 1 →
        decodeVal (fuel + 1) (encodeVal v ++ r) = some (v, r) := by
      intro v r hd
      cases v with
      | null => simp [encodeVal, decodeVal]
      | bool b => cases b <;> simp [encodeVal, decodeVal]
      | int i =>
        simp [encodeVal, decodeVal, List.cons_append, List.append_assoc,
          natDec_natEnc, intUnpack_intPack]
      | float bits =>
        simp [encodeVal, decodeVal, List.cons_append, List.append_assoc,
          natDec_natEnc]
      | str s =>
        simp [encodeVal, decodeVal, List.cons_append, List.append_assoc,
          decStrPayload_encStrPayload]
      | blob bs =>
        simp [encodeVal, decodeVal, List.cons_append, List.append_assoc,
          natDec_natEnc, decBytes_encBytes]
      | arr items =>
        have hlt : jdepthVals items < fuel := by
          simp only [jdepth] at hd; omega
        simp [encodeVal, decodeVal, List.cons_append, List.append_assoc,
          natDec_natEnc, ih.2.1 items r hlt]
      | obj fields =>
        have hlt : jdepthPairs fields < fuel := by
          simp only [jdepth] at hd; omega
        simp [encodeVal, decodeVal, List.cons_append, List.append_assoc,
          natDec_natEnc, ih.2.2 fields r hlt]
    have l2 : ∀ vs r, jdepthVals vs < fuel + 1 →
        decodeVals (fuel + 1) vs.length (encodeVals vs ++ r) =
          some (vs, r) := by
      intro vs
      induction vs with
      | nil => intro r _; simp [encodeVals, decodeVals]
      | cons v vs ihv =>
        intro r hd
        simp only [jdepthVals, Nat.max_lt] at hd
        simp [encodeVals, decodeVals, List.append_assoc,
          l1 v (encodeVals vs ++ r) hd.1, ihv r hd.2]
    have l3 : ∀ ps r, jdepthPairs ps < fuel + 1 →
        decodePairs (fuel + 1) ps.length (encodePairs ps ++ r) =
          some (ps, r) := by
      intro ps
      induction ps with
      | nil => intro r _; simp [encodePairs, decodePairs]
      | cons kv ps ihp =>
        intro r hd
        obtain ⟨k, v⟩ := kv
        simp only [jdepthPairs, Nat.max_lt] at hd
        simp [encodePairs, decodePairs, List.append_assoc,
          decStrPayload_encStrPayload,
          l1 v (encodePairs ps ++ r) hd.1, ihp r hd.2]
    exact ⟨l1, l2, l3⟩

theorem jdepth_le_encLength (n : Nat) :
    (∀ v : JValue, sizeOf v ≤ n → jdepth v ≤ (encodeVal v).length) ∧
    (∀ vs : List JValue, sizeOf vs ≤ n →
      jdepthVals vs ≤ (encodeVals vs).length) ∧
    (∀ ps : List (String × JValue), sizeOf ps ≤ n →
      jdepthPairs ps ≤ (encodePairs ps).length) := by
  induction n with
  | zero =>
    refine ⟨fun v hv => ?_, fun vs hvs => ?_, fun ps hps => ?_⟩
    · cases v <;> simp_arith at hv
    · cases vs <;> simp_arith at hvs
    · cases ps <;> simp_arith at hps
  | succ n ihn =>
    refine ⟨fun v hv => ?_, fun vs hvs => ?_, fun ps hps => ?_⟩
    · cases v with
      | null => simp [jdepth]
      | bool b => simp [jdepth]
      | int i => simp [jdepth]
      | float bits => simp [jdepth]
      | str s => simp [jdepth]
      | blob bs => simp [jdepth]
      | arr items =>
        have hs : sizeOf items ≤ n := by
          simp_arith [JValue.arr.sizeOf_spec] at hv; omega
        have h2 := ihn.2.1 items hs
        simp only [jdepth, encodeVal, List.length_cons, List.length_append]
        omega
      | obj fields =>
        have hs : sizeOf fields ≤ n := by
          simp_arith [JValue.obj.sizeOf_spec] at hv; omega
        have h2 := ihn.2.2 fields hs
        simp only [jdepth, encodeVal, List.length_cons, List.length_append]
        omega
    · cases vs with
      | nil => simp [jdepthVals]
      | cons v vs =>
        have h1 : sizeOf v ≤ n ∧ sizeOf vs ≤ n := by
          simp_arith [List.cons.sizeOf_spec] at hvs
          omega
        have hv' := ihn.1 v h1.1
        have hvs' := ihn.2.1 vs h1.2
        simp only [jdepthVals, encodeVals, List.length_append]
        rw [Nat.max_le]
        omega
    · cases ps with
      | nil => simp [jdepthPairs]
      | cons kv ps =>
        obtain ⟨k, v⟩ := kv
        have h1 : sizeOf v ≤ n ∧ sizeOf ps ≤ n := by
          simp_arith [List.cons.sizeOf_spec, Prod.mk.sizeOf_spec] at hps
          omega
        have hv' := ihn.1 v h1.1
        have hps' := ihn.2.2 ps h1.2
        simp only [jdepthPairs, encodePairs, List.length_append]
        rw [Nat.max_le]
        omega

theorem bson_roundtrip_aux (v : JValue) :
    bsonDeserialize (bsonSerialize v) = some v := by
  have hlen : jdepth v ≤ (encodeVal v).length :=
    (jdepth_le_encLength (sizeOf v)).1 v le_rfl
  have h := (decode_encode_all ((encodeVal v).length + 1)).1 v []
    (by omega)
  rw [List.append_nil] at h
  simp [bsonDeserialize, bsonSerialize, h]

/-! ## Round-trip of the text wire codec -/

theorem toDecAux_eq (n : Nat) : ∀ acc, toDecAux n acc = toDec n ++ acc := by
  induction n using Nat.strong_induction_on with
  | _ n ih =>
    intro acc
    by_cases h : n < 10
    · rw [toDec, toDecAux, if_pos h, toDecAux, if_pos h]
      rfl
    · have hlt : n / 10 < n := Nat.div_lt_self (by omega) (by omega)
      rw [toDec, toDecAux, if_neg h, ih (n / 10) hlt, toDecAux, if_neg h,
        ih (n / 10) hlt, List.append_assoc]
      rfl

theorem toDec_of_lt (n : Nat) (h : n < 10) : toDec n = [digitChar n] := by
  rw [toDec, toDecAux, if_pos h]

theorem toDec_of_ge (n : Nat) (h : ¬n < 10) :
    toDec n = toDec (n / 10) ++ [digitChar (n % 10)] := by
  rw [toDec, toDecAux, if_neg h, toDecAux_eq]

theorem isDigitChar_digitChar (d : Nat) (h : d < 10) :
    isDigitChar (digitChar d) = true := by
  simp only [isDigitChar, digitChar, char_toNat_ofNat (48 + d) (by omega)]
  simp only [Bool.and_eq_true, decide_eq_true_eq]
  omega

theorem digitVal_digitChar (d : Nat) (h : d < 10) :
    digitVal (digitChar d) = d := by
  simp [digitVal, digitChar, char_toNat_ofNat (48 + d) (by omega)]

theorem parseDigits_toDec (n : Nat) :
    ∀ a rest, parseDigits a (toDec n ++ rest) =
      parseDigits (a * 10 ^ (toDec n).length + n) rest := by
  induction n using Nat.strong_induction_on with
  | _ n ih =>
    intro a rest
    by_cases h : n < 10
    · rw [toDec_of_lt n h]
      simp [parseDigits, isDigitChar_digitChar n h, digitVal_digitChar n h]
    · have hlt : n / 10 < n := Nat.div_lt_self (by omega) (by omega)
      have acc_eq : ∀ p, (a * p + n / 10) * 10 + n % 10 =
          a * (p * 10) + n := by
        intro p
        calc (a * p + n / 10) * 10 + n % 10
            = a * (p * 10) + (10 * (n / 10) + n % 10) := by ring
          _ = a * (p * 10) + n := by rw [Nat.div_add_mod]
      rw [toDec_of_ge n h, List.append_assoc, ih (n / 10) hlt,
        List.singleton_append]
      rw [parseDigits]
      simp only [isDigitChar_digitChar (n % 10) (by omega : n % 10 < 10),
        digitVal_digitChar (n % 10) (by omega : n % 10 < 10), if_true]
      rw [acc_eq]
      simp only [List.length_append, List.length_singleton, pow_succ]

theorem parseNat_toDec (n : Nat) (c : Char) (rest : List Char)
    (hc : isDigitChar c = false) :
    parseNat (toDec n ++ (c :: rest)) = (n, c :: rest) := by
  rw [parseNat, parseDigits_toDec, parseDigits]
  simp [hc]

theorem takeChars_append (cs : List Char) (r : List Char) :
    takeChars cs.length (cs ++ r) = some (cs, r) := by
  induction cs with
  | nil => simp [takeChars]
  | cons c cs ih => simp [takeChars, ih]

theorem textDecStrPayload_enc (s : String) (r : List Char) :
    textDecStrPayload (textEncStrPayload s ++ r) = some (s, r) := by
  have htake := takeChars_append s.data r
  rw [show s.data.length = s.length from rfl] at htake
  simp only [textEncStrPayload, textDecStrPayload, List.append_assoc,
    List.cons_append]
  rw [parseNat_toDec _ _ _ (by decide)]
  simp [htake]

theorem neg_negSucc_toNat (m : Nat) : (-Int.negSucc m).toNat = m + 1 := by
  rw [Int.neg_negSucc]
  exact Int.toNat_ofNat _

theorem neg_ofNat_succ (m : Nat) : -(Int.ofNat (m + 1)) = Int.negSucc m := by
  rw [Int.negSucc_eq]
  simp

theorem blob_chars_roundtrip (bs : List UInt8) :
    List.map ((fun ch => UInt8.ofNat ch.toNat) ∘
      (fun b => Char.ofNat b.toNat)) bs = bs := by
  induction bs with
  | nil => rfl
  | cons b bs ih =>
    have hb : b.toNat < 55296 := by
      have := UInt8.toNat_lt b
      omega
    simp [Function.comp, char_toNat_ofNat _ hb, uint8_ofNat_toNat, ih]

theorem parseNat_toDec_semi (n : Nat) (rest : List Char) :
    parseNat (toDec n ++ (';' :: rest)) = (n, ';' :: rest) :=
  parseNat_toDec n ';' rest (by decide)

theorem parseNat_toDec_colon (n : Nat) (rest : List Char) :
    parseNat (toDec n ++ (':' :: rest)) = (n, ':' :: rest) :=
  parseNat_toDec n ':' rest (by decide)

theorem text_decode_encode_all (fuel : Nat) :
    (∀ v r, jdepth v < fuel →
      textDecVal fuel (textEncVal v ++ r) = some (v, r)) ∧
    (∀ vs r, jdepthVals vs < fuel →
      textDecVals fuel vs.length (textEncVals vs ++ r) = some (vs, r)) ∧
    (∀ ps r, jdepthPairs ps < fuel →
      textDecPairs fuel ps.length (textEncPairs ps ++ r) = some (ps, r)) := by
  induction fuel with
  | zero =>
    exact ⟨fun v r h => absurd h (Nat.not_lt_zero _),
      fun vs r h => absurd h (Nat.not_lt_zero _),
      fun ps r h => absurd h (Nat.not_lt_zero _)⟩
  | succ fuel ih =>
    have l1 : ∀ v r, jdepth v < fuel + 1 →
        textDecVal (fuel + 1) (textEncVal v ++ r) = some (v, r) := by
      intro v r hd
      cases v with
      | null => simp [textEncVal, textDecVal]
      | bool b => cases b <;> simp [textEncVal, textDecVal]
      | int i =>
        by_cases hneg : i < 0
        · have hres : -(Int.ofNat ((-i).toNat)) = i := by
            rw [Int.ofNat_eq_natCast, Int.toNat_of_nonneg (by omega)]
            omega
          simp [textEncVal, hneg, textDecVal, List.cons_append,
            List.append_assoc, parseNat_toDec_semi, hres]
          omega
        · have hres : Int.ofNat (i.toNat) = i := by
            rw [Int.ofNat_eq_natCast]
            exact Int.toNat_of_nonneg (by omega)
          simp [textEncVal, hneg, textDecVal, List.cons_append,
            List.append_assoc, parseNat_toDec_semi, hres]
          omega
      | float bits =>
        simp [textEncVal, textDecVal, List.cons_append, List.append_assoc,
          parseNat_toDec_semi]
      | str s =>
        simp [textEncVal, textDecVal, List.cons_append, List.append_assoc,
          textDecStrPayload_enc]
      | blob bs =>
        have htake :=
          takeChars_append (bs.map (fun b => Char.ofNat b.toNat)) r
        rw [List.length_map] at htake
        simp [textEncVal, textDecVal, List.cons_append, List.append_assoc,
          parseNat_toDec_colon, htake, blob_chars_roundtrip]
      | arr items =>
        have hlt : jdepthVals items < fuel := by
          simp only [jdepth] at hd; omega
        simp [textEncVal, textDecVal, List.cons_append, List.append_assoc,
          parseNat_toDec_colon, ih.2.1 items r hlt]
      | obj fields =>
        have hlt : jdepthPairs fields < fuel := by
          simp only [jdepth] at hd; omega
        simp [textEncVal, textDecVal, List.cons_append, List.append_assoc,
          parseNat_toDec_colon, ih.2.2 fields r hlt]
    have l2 : ∀ vs r, jdepthVals vs < fuel + 1 →
        textDecVals (fuel + 1) vs.length (textEncVals vs ++ r) =
          some (vs, r) := by
      intro vs
      induction vs with
      | nil => intro r _; simp [textEncVals, textDecVals]
      | cons v vs ihv =>
        intro r hd
        simp only [jdepthVals, Nat.max_lt] at hd
        simp [textEncVals, textDecVals, List.append_assoc,
          l1 v (textEncVals vs ++ r) hd.1, ihv r hd.2]
    have l3 : ∀ ps r, jdepthPairs ps < fuel + 1 →
        textDecPairs (fuel + 1) ps.length (textEncPairs ps ++ r) =
          some (ps, r) := by
      intro ps
      induction ps with
      | nil => intro r _; simp [textEncPairs, textDecPairs]
      | cons kv ps ihp =>
        intro r hd
        obtain ⟨k, v⟩ := kv
        simp only [jdepthPairs, Nat.max_lt] at hd
        simp [textEncPairs, textDecPairs, List.append_assoc,
          textDecStrPayload_enc, l1 v (textEncPairs ps ++ r) hd.1,
          ihp r hd.2]
    exact ⟨l1, l2, l3⟩

theorem jdepth_le_textLength (n : Nat) :
    (∀ v : JValue, sizeOf v ≤ n → jdepth v ≤ (textEncVal v).length) ∧
    (∀ vs : List JValue, sizeOf vs ≤ n →
      jdepthVals vs ≤ (textEncVals vs).length) ∧
    (∀ ps : List (String × JValue), sizeOf ps ≤ n →
      jdepthPairs ps ≤ (textEncPairs ps).length) := by
  induction n with
  | zero =>
    refine ⟨fun v hv => ?_, fun vs hvs => ?_, fun ps hps => ?_⟩
    · cases v <;> simp_arith at hv
    · cases vs <;> simp_arith at hvs
    · cases ps <;> simp_arith at hps
  | succ n ihn =>
    refine ⟨fun v hv => ?_, fun vs hvs => ?_, fun ps hps => ?_⟩
    · cases v with
      | null => simp [jdepth]
      | bool b => cases b <;> simp [jdepth]
      | int i => simp [jdepth]
      | float bits => simp [jdepth]
      | str s => simp [jdepth]
      | blob bs => simp [jdepth]
      | arr items =>
        have hs : sizeOf items ≤ n := by
          simp_arith [JValue.arr.sizeOf_spec] at hv; omega
        have h2 := ihn.2.1 items hs
        simp only [jdepth, textEncVal, List.length_cons, List.length_append]
        omega
      | obj fields =>
        have hs : sizeOf fields ≤ n := by
          simp_arith [JValue.obj.sizeOf_spec] at hv; omega
        have h2 := ihn.2.2 fields hs
        simp only [jdepth, textEncVal, List.length_cons, List.length_append]
        omega
    · cases vs with
      | nil => simp [jdepthVals]
      | cons v vs =>
        have h1 : sizeOf v ≤ n ∧ sizeOf vs ≤ n := by
          simp_arith [List.cons.sizeOf_spec] at hvs
          omega
        have hv' := ihn.1 v h1.1
        have hvs' := ihn.2.1 vs h1.2
        simp only [jdepthVals, textEncVals, List.length_append]
        rw [Nat.max_le]
        omega
    · cases ps with
      | nil => simp [jdepthPairs]
      | cons kv ps =>
        obtain ⟨k, v⟩ := kv
        have h1 : sizeOf v ≤ n ∧ sizeOf ps ≤ n := by
          simp_arith [List.cons.sizeOf_spec, Prod.mk.sizeOf_spec] at hps
          omega
        have hv' := ihn.1 v h1.1
        have hps' := ihn.2.2 ps h1.2
        simp only [jdepthPairs, textEncPairs, List.length_append]
        rw [Nat.max_le]
        omega

theorem json_roundtrip_aux (v : JValue) :
    jsonDeserialize (jsonSerialize v) = some v := by
  have hlen : jdepth v ≤ (textEncVal v).length :=
    (jdepth_le_textLength (sizeOf v)).1 v le_rfl
  have h := (text_decode_encode_all ((textEncVal v).length + 1)).1 v []
    (by omega)
  rw [List.append_nil] at h
  simp [jsonDeserialize, jsonSerialize, h]

/-! ## The decode path -/

/-- Claim C2: interpreting any structured value that has no "op" field
fails with `MissingOpCode` carrying the original payload, and dispatches
no endpoint call. -/
theorem interpret_missing_op_code {H : Type} (env : JValue) (handle : H)
    (hop : env.find? JsonOpKey = none) :
    interpret_websocket_msg env handle =
      Except.error (InterpretError.missingOpCode env) := by
  simp [interpret_websocket_msg, hop]

/-- Claim C2, witness: the empty envelope. -/
theorem interpret_missing_op_code_witness :
    interpret_websocket_msg (H := Nat) (JValue.obj []) 0 =
      Except.error (InterpretError.missingOpCode (JValue.obj [])) :=
  interpret_missing_op_code (JValue.obj []) 0 rfl

/-- Claim C10: interpreting an envelope whose "op" field holds a
non-string value fails with the type error of `get<std::string>`
(carrying the offending value) rather than being silently ignored, and
dispatches no endpoint call. -/
theorem interpret_nonstring_op_errors {H : Type} (env v : JValue) (handle : H)
    (hop : env.find? JsonOpKey = some v) (hv : v.isStr = false) :
    interpret_websocket_msg env handle =
      Except.error (InterpretError.notAString v) := by
  simp only [interpret_websocket_msg, hop]
  cases v <;> first
    | rfl
    | simp [JValue.isStr] at hv

/-- Claim C10, witness: an envelope whose op field holds the number 5. -/
theorem interpret_nonstring_op_errors_witness :
    interpret_websocket_msg (H := Nat)
      (JValue.obj [("op", JValue.int 5)]) 0 =
      Except.error (InterpretError.notAString (JValue.int 5)) :=
  interpret_nonstring_op_errors _ _ 0 rfl rfl

/-- Claim C3: interpreting an envelope whose "op" field holds a string
that is none of the nine recognized op strings succeeds and dispatches
no endpoint call. -/
theorem interpret_unknown_op_noop {H : Type} (env : JValue) (op_s : String)
    (handle : H)
    (hop : env.find? JsonOpKey = some (JValue.str op_s))
    (hunknown : op_s ∉ [JsonOpPublishKey, JsonOpServiceRequestKey,
      JsonOpServiceResponseKey, JsonOpAdvertiseTopicKey,
      JsonOpUnadvertiseTopicKey, JsonOpSubscribeKey, JsonOpUnsubscribeKey,
      JsonOpAdvertiseServiceKey, JsonOpUnadvertiseServiceKey]) :
    interpret_websocket_msg env handle = Except.ok [] := by
  simp only [List.mem_cons, List.not_mem_nil, or_false, not_or] at hunknown
  obtain ⟨h1, h2, h3, h4, h5, h6, h7, h8, h9⟩ := hunknown
  simp [interpret_websocket_msg, hop, getString, h1, h2, h3, h4, h5, h6, h7,
    h8, h9, except_bind_ok, except_pure]

/-- Claim C3, witness: the op string "ping". -/
theorem interpret_unknown_op_noop_witness :
    interpret_websocket_msg (H := Nat)
      (JValue.obj [("op", JValue.str "ping")]) 0 = Except.ok [] :=
  interpret_unknown_op_noop _ "ping" 0 rfl (by decide)

/-- Claim C4: interpreting an envelope with op="publish" that carries a
"topic" field but no "msg" field fails with
`MissingRequiredField("msg")` and dispatches no endpoint call. -/
theorem interpret_publish_missing_msg {H : Type} (env : JValue)
    (topic : String) (handle : H)
    (hop : env.find? JsonOpKey = some (JValue.str JsonOpPublishKey))
    (htopic : env.find? JsonTopicNameKey = some (JValue.str topic))
    (hmsg : env.find? JsonMsgKey = none) :
    interpret_websocket_msg env handle =
      Except.error (InterpretError.missingRequiredField "msg") := by
  simp only [JsonOpKey, JsonTopicNameKey, JsonMsgKey, JsonOpPublishKey]
    at hop htopic hmsg
  simp [interpret_websocket_msg, JsonOpKey, JsonTopicNameKey, JsonMsgKey,
    JsonOpPublishKey, hop, htopic, hmsg, get_required_string,
    get_required_msg, getString, except_bind_ok, except_bind_error,
    except_map_error]

/-- Claim C4, witness: a publish envelope with a topic and no msg. -/
theorem interpret_publish_missing_msg_witness :
    interpret_websocket_msg (H := Nat)
      (JValue.obj [("op", JValue.str "publish"),
        ("topic", JValue.str "chatter")]) 0 =
      Except.error (InterpretError.missingRequiredField "msg") :=
  interpret_publish_missing_msg _ "chatter" 0 rfl rfl rfl

/-- Claim C1: for each of the nine recognized op strings, interpreting
an envelope carrying that op and exactly its required fields (each
optional field absent) succeeds and dispatches exactly the endpoint
call of §4.2's table, with every absent optional field passed as the
empty string and every required field value passed through unchanged. -/
theorem interpret_required_only_dispatch {H : Type} (handle : H) :
    (∀ env topic mv,
      env.find? JsonOpKey = some (JValue.str JsonOpPublishKey) →
      env.find? JsonTopicNameKey = some (JValue.str topic) →
      env.find? JsonMsgKey = some mv →
      interpret_websocket_msg env handle =
        Except.ok [EndpointCall.receive_publication topic (msg_of_json mv)
          handle]) ∧
    (∀ env service av,
      env.find? JsonOpKey = some (JValue.str JsonOpServiceRequestKey) →
      env.find? JsonServiceKey = some (JValue.str service) →
      env.find? JsonArgsKey = some av →
      env.find? JsonIdKey = none →
      interpret_websocket_msg env handle =
        Except.ok [EndpointCall.receive_service_request service
          (msg_of_json av) "" handle]) ∧
    (∀ env service vv,
      env.find? JsonOpKey = some (JValue.str JsonOpServiceResponseKey) →
      env.find? JsonServiceKey = some (JValue.str service) →
      env.find? JsonValuesKey = some vv →
      env.find? JsonIdKey = none →
      interpret_websocket_msg env handle =
        Except.ok [EndpointCall.receive_service_response service
          (msg_of_json vv) "" handle]) ∧
    (∀ env topic typeName,
      env.find? JsonOpKey = some (JValue.str JsonOpAdvertiseTopicKey) →
      env.find? JsonTopicNameKey = some (JValue.str topic) →
      env.find? JsonTypeNameKey = some (JValue.str typeName) →
      env.find? JsonIdKey = none →
      interpret_websocket_msg env handle =
        Except.ok [EndpointCall.receive_topic_advertisement topic typeName
          "" handle]) ∧
    (∀ env topic,
      env.find? JsonOpKey = some (JValue.str JsonOpUnadvertiseTopicKey) →
      env.find? JsonTopicNameKey = some (JValue.str topic) →
      env.find? JsonIdKey = none →
      interpret_websocket_msg env handle =
        Except.ok [EndpointCall.receive_topic_unadvertisement topic ""
          handle]) ∧
    (∀ env topic,
      env.find? JsonOpKey = some (JValue.str JsonOpSubscribeKey) →
      env.find? JsonTopicNameKey = some (JValue.str topic) →
      env.find? JsonTypeNameKey = none →
      env.find? JsonIdKey = none →
      interpret_websocket_msg env handle =
        Except.ok [EndpointCall.receive_subscribe_request topic "" ""
          handle]) ∧
    (∀ env topic,
      env.find? JsonOpKey = some (JValue.str JsonOpUnsubscribeKey) →
      env.find? JsonTopicNameKey = some (JValue.str topic) →
      env.find? JsonIdKey = none →
      interpret_websocket_msg env handle =
        Except.ok [EndpointCall.receive_unsubscribe_request topic ""
          handle]) ∧
    (∀ env service typeName,
      env.find? JsonOpKey = some (JValue.str JsonOpAdvertiseServiceKey) →
      env.find? JsonServiceKey = some (JValue.str service) →
      env.find? JsonTypeNameKey = some (JValue.str typeName) →
      interpret_websocket_msg env handle =
        Except.ok [EndpointCall.receive_service_advertisement service
          typeName handle]) ∧
    (∀ env service,
      env.find? JsonOpKey = some (JValue.str JsonOpUnadvertiseServiceKey) →
      env.find? JsonServiceKey = some (JValue.str service) →
      env.find? JsonTypeNameKey = none →
      interpret_websocket_msg env handle =
        Except.ok [EndpointCall.receive_service_unadvertisement service ""
          handle]) := by
  refine ⟨?_, ?_, ?_, ?_, ?_, ?_, ?_, ?_, ?_⟩ <;>
    (intro env
     intros
     simp only [JsonOpKey, JsonTopicNameKey, JsonTypeNameKey, JsonMsgKey,
       JsonServiceKey, JsonArgsKey, JsonValuesKey, JsonIdKey,
       JsonOpPublishKey, JsonOpServiceRequestKey, JsonOpServiceResponseKey,
       JsonOpAdvertiseTopicKey, JsonOpUnadvertiseTopicKey,
       JsonOpSubscribeKey, JsonOpUnsubscribeKey, JsonOpAdvertiseServiceKey,
       JsonOpUnadvertiseServiceKey] at *
     simp [interpret_websocket_msg, JsonOpKey, JsonTopicNameKey,
       JsonTypeNameKey, JsonMsgKey, JsonServiceKey, JsonArgsKey,
       JsonValuesKey, JsonIdKey, JsonOpPublishKey, JsonOpServiceRequestKey,
       JsonOpServiceResponseKey, JsonOpAdvertiseTopicKey,
       JsonOpUnadvertiseTopicKey, JsonOpSubscribeKey, JsonOpUnsubscribeKey,
       JsonOpAdvertiseServiceKey, JsonOpUnadvertiseServiceKey,
       get_required_string, get_required_msg, get_optional_string,
       getString, except_bind_ok, except_bind_error, except_map_ok,
       except_map_error, except_pure, *])

/-- Claim C1, witness: one concrete required-fields-only envelope per
op code, each dispatching the §4.2 endpoint call. -/
theorem interpret_required_only_dispatch_witness :
    (interpret_websocket_msg (H := Nat)
      (JValue.obj [("op", JValue.str "publish"),
        ("topic", JValue.str "chatter"), ("msg", JValue.null)]) 0 =
      Except.ok [EndpointCall.receive_publication "chatter"
        (msg_of_json JValue.null) 0]) ∧
    (interpret_websocket_msg (H := Nat)
      (JValue.obj [("op", JValue.str "call_service"),
        ("service", JValue.str "srv"), ("args", JValue.null)]) 0 =
      Except.ok [EndpointCall.receive_service_request "srv"
        (msg_of_json JValue.null) "" 0]) ∧
    (interpret_websocket_msg (H := Nat)
      (JValue.obj [("op", JValue.str "service_response"),
        ("service", JValue.str "srv"), ("values", JValue.null)]) 0 =
      Except.ok [EndpointCall.receive_service_response "srv"
        (msg_of_json JValue.null) "" 0]) ∧
    (interpret_websocket_msg (H := Nat)
      (JValue.obj [("op", JValue.str "advertise"),
        ("topic", JValue.str "chatter"),
        ("type", JValue.str "std_msgs/String")]) 0 =
      Except.ok [EndpointCall.receive_topic_advertisement "chatter"
        "std_msgs/String" "" 0]) ∧
    (interpret_websocket_msg (H := Nat)
      (JValue.obj [("op", JValue.str "unadvertise"),
        ("topic", JValue.str "chatter")]) 0 =
      Except.ok [EndpointCall.receive_topic_unadvertisement "chatter" ""
        0]) ∧
    (interpret_websocket_msg (H := Nat)
      (JValue.obj [("op", JValue.str "subscribe"),
        ("topic", JValue.str "scan")]) 0 =
      Except.ok [EndpointCall.receive_subscribe_request "scan" "" "" 0]) ∧
    (interpret_websocket_msg (H := Nat)
      (JValue.obj [("op", JValue.str "unsubscribe"),
        ("topic", JValue.str "scan")]) 0 =
      Except.ok [EndpointCall.receive_unsubscribe_request "scan" "" 0]) ∧
    (interpret_websocket_msg (H := Nat)
      (JValue.obj [("op", JValue.str "advertise_service"),
        ("service", JValue.str "srv"), ("type", JValue.str "pkg/Srv")]) 0 =
      Except.ok [EndpointCall.receive_service_advertisement "srv"
        "pkg/Srv" 0]) ∧
    (interpret_websocket_msg (H := Nat)
      (JValue.obj [("op", JValue.str "unadvertise_service"),
        ("service", JValue.str "srv")]) 0 =
      Except.ok [EndpointCall.receive_service_unadvertisement "srv" "" 0]) :=
  ⟨(interpret_required_only_dispatch 0).1 _ "chatter" JValue.null
      rfl rfl rfl,
    (interpret_required_only_dispatch 0).2.1 _ "srv" JValue.null
      rfl rfl rfl rfl,
    (interpret_required_only_dispatch 0).2.2.1 _ "srv" JValue.null
      rfl rfl rfl rfl,
    (interpret_required_only_dispatch 0).2.2.2.1 _ "chatter"
      "std_msgs/String" rfl rfl rfl rfl,
    (interpret_required_only_dispatch 0).2.2.2.2.1 _ "chatter"
      rfl rfl rfl,
    (interpret_required_only_dispatch 0).2.2.2.2.2.1 _ "scan"
      rfl rfl rfl rfl,
    (interpret_required_only_dispatch 0).2.2.2.2.2.2.1 _ "scan"
      rfl rfl rfl,
    (interpret_required_only_dispatch 0).2.2.2.2.2.2.2.1 _ "srv"
      "pkg/Srv" rfl rfl rfl,
    (interpret_required_only_dispatch 0).2.2.2.2.2.2.2.2 _ "srv"
      rfl rfl rfl⟩

/-! ## The encode path -/

/-- Claim C7: `encode_publication_msg` builds, before byte
serialization, an envelope holding exactly op="publish", the topic and
the converted message, plus an "id" field exactly when the id argument
is non-empty. -/
theorem encode_publication_envelope (topic_name topic_type id : String)
    (msg : Message) :
    encode_publication_obj topic_name topic_type id msg =
      (if id = "" then
        JValue.obj [(JsonOpKey, JValue.str JsonOpPublishKey),
          (JsonTopicNameKey, JValue.str topic_name),
          (JsonMsgKey, json_convert msg)]
      else
        JValue.obj [(JsonOpKey, JValue.str JsonOpPublishKey),
          (JsonTopicNameKey, JValue.str topic_name),
          (JsonMsgKey, json_convert msg),
          (JsonIdKey, JValue.str id)]) := by
  by_cases hid : id = ""
  · subst hid; rfl
  · simp [encode_publication_obj, setField, hid, JsonOpKey,
      JsonTopicNameKey, JsonMsgKey, JsonIdKey, JsonOpPublishKey]

/-- Claim C8: `encode_advertise_service_msg` builds an envelope holding
exactly op="advertise_service", the type and the service, and never an
"id" field, whatever id argument is supplied. -/
theorem encode_advertise_service_envelope (service_name service_type
    id : String) (config : YamlNode) :
    encode_advertise_service_obj service_name service_type id config =
      JValue.obj [(JsonOpKey, JValue.str JsonOpAdvertiseServiceKey),
        (JsonTypeNameKey, JValue.str service_type),
        (JsonServiceKey, JValue.str service_name)] ∧
    (encode_advertise_service_obj service_name service_type id
      config).find? JsonIdKey = none :=
  ⟨rfl, rfl⟩

/-- Claim C9: `encode_service_response_msg` builds an envelope holding
op="service_response", the service, values=convert(response) and the
boolean "result" field (present even when the result is false), plus an
"id" field exactly when the id argument is non-empty. -/
theorem encode_service_response_envelope (service_name service_type
    id : String) (response : Message) (result : Bool) :
    encode_service_response_obj service_name service_type id response
        result =
      (if id = "" then
        JValue.obj [(JsonOpKey, JValue.str JsonOpServiceResponseKey),
          (JsonServiceKey, JValue.str service_name),
          (JsonValuesKey, json_convert response),
          (JsonResultKey, JValue.bool result)]
      else
        JValue.obj [(JsonOpKey, JValue.str JsonOpServiceResponseKey),
          (JsonServiceKey, JValue.str service_name),
          (JsonValuesKey, json_convert response),
          (JsonResultKey, JValue.bool result),
          (JsonIdKey, JValue.str id)]) := by
  by_cases hid : id = ""
  · subst hid; rfl
  · simp [encode_service_response_obj, setField, hid, JsonOpKey,
      JsonServiceKey, JsonValuesKey, JsonResultKey, JsonIdKey,
      JsonOpServiceResponseKey]

/-! ## Codec laws and the full round trip -/

/-- Claim C5: for every value of the shared structured-value model,
deserializing its serialization returns it unchanged, for both the
binary (BSON) codec variant and the text codec variant. -/
theorem codec_roundtrip (v : JValue) :
    bsonDeserialize (bsonSerialize v) = some v ∧
    jsonDeserialize (jsonSerialize v) = some v :=
  ⟨bson_roundtrip_aux v, json_roundtrip_aux v⟩

/-- Claim C6: encoding a subscribe operation for topic "scan", type
"sensor_msgs/LaserScan" and id "sub1" with the binary codec, then
deserializing the bytes and interpreting the resulting envelope,
dispatches exactly the one endpoint call
receive_subscribe_request("scan", "sensor_msgs/LaserScan", "sub1",
handle). -/
theorem subscribe_roundtrip_dispatch {H : Type} (handle : H) :
    (bsonDeserialize (encode_subscribe_msg bsonSerialize "scan"
        "sensor_msgs/LaserScan" "sub1" emptyConfig)).map
      (fun v => interpret_websocket_msg v handle) =
    some (Except.ok [EndpointCall.receive_subscribe_request "scan"
      "sensor_msgs/LaserScan" "sub1" handle]) := by
  rw [encode_subscribe_msg, bson_roundtrip_aux]
  rfl

end Soss
